import Mathlib

/-!
Shallow embedding of the `malloced` crate: an owning smart pointer over
`malloc`-ed memory (`src/lib.rs`, `src/impls.rs`), and its by-value slice
iterator (`src/iter.rs`).  Pointers are modelled as byte addresses (`Nat`),
machine `usize` arithmetic as arithmetic modulo `2 ^ 64`, and the observable
memory-management actions (running a destructor in place, calling the foreign
`free`, arming the deallocation scope guard) as an event trace.
-/

namespace MallocedModel

/-- The modulus of `usize` arithmetic: pointers are 64-bit machine words. -/
def USIZE : Nat := 2 ^ 64

/-- `usize::wrapping_add`. -/
def wadd (a b : Nat) : Nat := (a + b) % USIZE

/-- `usize::wrapping_sub`. -/
def wsub (a b : Nat) : Nat := (a + (USIZE - b % USIZE)) % USIZE

/-- `usize::checked_div`: `none` exactly when the divisor is zero. -/
def checked_div (a b : Nat) : Option Nat :=
  if b = 0 then none else some (a / b)

/-- Observable memory-management events emitted by the crate's teardown code:
`destroy a` is `ptr::drop_in_place` running the pointee destructor at address
`a`; `free a` is the foreign `sys::free(a)`; `guardArm a` is the construction
of the `DeallocGuard` that will call `sys::free(a)` when teardown finishes. -/
inductive Event where
  | guardArm (addr : Nat) : Event
  | destroy (addr : Nat) : Event
  | free (addr : Nat) : Event
deriving DecidableEq

/-- The addresses passed to the foreign `free`, in order of occurrence. -/
def freeArgs (tr : List Event) : List Nat :=
  tr.filterMap fun e =>
    match e with
    | Event.free a => some a
    | _ => none

/-- The addresses at which a pointee destructor ran, in order of occurrence. -/
def destroyArgs (tr : List Event) : List Nat :=
  tr.filterMap fun e =>
    match e with
    | Event.destroy a => some a
    | _ => none

/-- `Malloced<T>` (src/lib.rs lines 110-116): a `repr(transparent)` wrapper
over a `NonNull<T>`; modelled by its single non-null address. -/
structure Malloced where
  ptr : Nat
deriving DecidableEq

/-- `Drop for Malloced` (src/impls.rs lines 15-24): `ptr::drop_in_place(ptr)`
then `sys::free(ptr)`. -/
def Malloced.drop (m : Malloced) : List Event :=
  [Event.destroy m.ptr, Event.free m.ptr]

/-- `Malloced::from_raw` (src/lib.rs lines 193-199): wraps the raw pointer,
no side effects. -/
def Malloced.from_raw (p : Nat) : Malloced :=
  ⟨p⟩

/-- `Malloced::leak` (src/lib.rs lines 240-246): `ManuallyDrop::new(this)`
suppresses the destructor and the inner pointer is returned; no events. -/
def Malloced.leak (m : Malloced) : Nat × List Event :=
  (m.ptr, [])

/-- `Malloced::into_raw` (src/lib.rs lines 204-207): defined as `Self::leak`. -/
def Malloced.into_raw (m : Malloced) : Nat × List Event :=
  Malloced.leak m

/-- `Malloced<dyn Any>`: the type-erased handle carries the erased value's
address and its runtime type identity (`TypeId`, modelled as a `Nat`). -/
structure AnyMalloced where
  ptr : Nat
  tyId : Nat
deriving DecidableEq

/-- `Malloced::into_any` (src/lib.rs lines 264-272): `mem::forget(this)` then
`Malloced::from_raw(ptr as *mut dyn Any)`; the address is preserved, the
runtime identity of `T` is attached, and no events are emitted. -/
def Malloced.into_any (tyId : Nat) (m : Malloced) : AnyMalloced × List Event :=
  (⟨(Malloced.into_raw m).1, tyId⟩, (Malloced.into_raw m).2)

/-- `<dyn Any>::is::<T>()`: compares the carried runtime identity with `T`. -/
def AnyMalloced.is (h : AnyMalloced) (target : Nat) : Bool :=
  h.tyId == target

/-- `Malloced::<dyn Any>::downcast` (src/lib.rs lines 349-360): on `is::<T>()`
success, `into_raw` then `from_raw(raw as *mut T)` (same address, no events);
on mismatch, `Err(self)` unchanged. -/
def AnyMalloced.downcast (h : AnyMalloced) (target : Nat) :
    Except AnyMalloced Malloced × List Event :=
  if h.is target then (Except.ok (Malloced.from_raw h.ptr), [])
  else (Except.error h, [])

/-- `SliceIter<T>` (src/iter.rs lines 11-17): `buf` is the `NonNull` base
address of the allocation, `ptr` the forward cursor, `endp` the `end`
cursor (`end` is not a valid Lean identifier). -/
structure SliceIter where
  buf : Nat
  ptr : Nat
  endp : Nat
deriving DecidableEq

/-- The value yielded by an iterator step: for a zero-sized element type the
code makes up `mem::zeroed()`; otherwise it reads the element at an address. -/
inductive Item where
  | zeroed : Item
  | read (addr : Nat) : Item
deriving DecidableEq

/-- `Iterator::next for SliceIter` (src/iter.rs lines 55-71), for element size
`sz = mem::size_of::<T>()`.  Exhausted when `ptr == end`.  For `sz = 0` the
cursor moves bytewise with `wrapping_add(1)` and a zeroed value is made up;
otherwise the old `ptr` is read and `ptr` advances by `offset(1)` (in-bounds
by the iterator's validity invariant, so plain addition). -/
def SliceIter.next (sz : Nat) (it : SliceIter) : Option Item × SliceIter :=
  if it.ptr = it.endp then (none, it)
  else if sz = 0 then
    (some Item.zeroed, { it with ptr := wadd it.ptr 1 })
  else
    (some (Item.read it.ptr), { it with ptr := it.ptr + sz })

/-- `DoubleEndedIterator::next_back for SliceIter` (src/iter.rs lines 92-107).
Exhausted when `end == ptr`.  For `sz = 0` the code mutates `self.ptr` with
`wrapping_sub(1)` (this is what the source does; `end` is left untouched) and
makes up a zeroed value; otherwise `end` moves back by `offset(-1)` and the
element at the new `end` is read. -/
def SliceIter.next_back (sz : Nat) (it : SliceIter) : Option Item × SliceIter :=
  if it.endp = it.ptr then (none, it)
  else if sz = 0 then
    (some Item.zeroed, { it with ptr := wsub it.ptr 1 })
  else
    (some (Item.read (it.endp - sz)), { it with endp := it.endp - sz })

/-- `ExactSizeIterator::len for SliceIter` (src/iter.rs lines 112-121):
`diff = (end as usize).wrapping_sub(ptr as usize)`, then
`diff.checked_div(size_of::<T>())`, falling back to `diff` on `None` (ZST). -/
def SliceIter.len (sz : Nat) (it : SliceIter) : Nat :=
  let diff := wsub it.endp it.ptr
  match checked_div diff sz with
  | some l => l
  | none => diff

/-- The byte distance between the two cursors, as the spec words it. -/
def byteDistance (it : SliceIter) : Nat :=
  wsub it.endp it.ptr

/-- Modelled from the spec wording of the length computation (section 4.3):
byte distance divided by element width, except that for zero-sized elements
the distance is the count directly.  Stated separately from
`SliceIter.len` so their agreement is a theorem, not a definition. -/
def lenSpec (sz : Nat) (it : SliceIter) : Nat :=
  if sz = 0 then byteDistance it else byteDistance it / sz

/-- `IntoIterator for Malloced<[T]>` (src/lib.rs lines 118-152): `buf` and
`ptr` are the slice's base; `end` is `ptr` moved `len` bytes for a ZST
(`wrapping_add`), or `len` elements (`ptr.add(len)`) otherwise. -/
def intoIter (base len sz : Nat) : SliceIter :=
  { buf := base
    ptr := base
    endp := if sz = 0 then wadd base len else base + len * sz }

/-- Addresses of the not-yet-yielded elements `[ptr, ptr + len * sz)` exposed
by `as_raw_mut_slice` (src/iter.rs lines 21-23): `len` elements from `ptr`. -/
def remainingAddrs (sz : Nat) (it : SliceIter) : List Nat :=
  (List.range (SliceIter.len sz it)).map fun i => it.ptr + i * sz

/-- `ptr::drop_in_place` over the remaining elements, with a pointee
destructor that may panic: elements are destroyed in order; a panicking
destructor stops element-wise destruction and unwinds (the spec's
"destruction of the remaining elements was incomplete").  Returns the
events and whether a panic occurred. -/
def destroyElems (panics : Nat → Bool) : List Nat → List Event × Bool
  | [] => ([], false)
  | a :: rest =>
    if panics a then ([Event.destroy a], true)
    else
      let r := destroyElems panics rest
      (Event.destroy a :: r.1, r.2)

/-- `Drop for SliceIter` (src/iter.rs lines 26-49): first the `DeallocGuard`
holding `buf` is constructed (armed), then `drop_in_place` runs on the
remaining slice; the guard fires `sys::free(buf)` on every exit path,
including the unwind of a panicking element destructor. -/
def SliceIter.drop (sz : Nat) (panics : Nat → Bool) (it : SliceIter) :
    List Event × Bool :=
  let r := destroyElems panics (remainingAddrs sz it)
  (Event.guardArm it.buf :: (r.1 ++ [Event.free it.buf]), r.2)

/-- A direction of an iterator step. -/
inductive Dir where
  | fwd : Dir
  | back : Dir
deriving DecidableEq

/-- Apply a sequence of forward/backward steps, discarding yielded items. -/
def advanceDirs (sz : Nat) : List Dir → SliceIter → SliceIter
  | [], it => it
  | Dir.fwd :: ds, it => advanceDirs sz ds (SliceIter.next sz it).2
  | Dir.back :: ds, it => advanceDirs sz ds (SliceIter.next_back sz it).2

/-- A sequence of consuming operations applied to one owning handle, as in
spec P1: drop, leak (`into_raw` behaves identically), leak followed by
re-adoption through `from_raw`, erasure to `dyn Any`, downcast (continuing
on the success or failure handle), or conversion to a slice iterator that is
stepped and then dropped. -/
inductive Consume where
  | drop : Consume
  | leak : Consume
  | readopt (k : Consume) : Consume
  | intoAny (k : Consume) : Consume
  | downcast (target : Nat) (onOk onFail : Consume) : Consume
  | intoIter (sz len : Nat) (dirs : List Dir) (panics : Nat → Bool) : Consume

/-- The event trace of a consumption sequence applied to a handle with
address `addr` and runtime identity `tyId`, composing the operation models
above exactly as the source threads the pointer through them. -/
def consumeTrace (addr tyId : Nat) : Consume → List Event
  | Consume.drop => Malloced.drop ⟨addr⟩
  | Consume.leak => (Malloced.leak ⟨addr⟩).2
  | Consume.readopt k =>
    (Malloced.leak ⟨addr⟩).2 ++
      consumeTrace (Malloced.from_raw (Malloced.leak ⟨addr⟩).1).ptr tyId k
  | Consume.intoAny k =>
    (Malloced.into_any tyId ⟨addr⟩).2 ++
      consumeTrace (Malloced.into_any tyId ⟨addr⟩).1.ptr tyId k
  | Consume.downcast t onOk onFail =>
    (AnyMalloced.downcast ⟨addr, tyId⟩ t).2 ++
      (match (AnyMalloced.downcast ⟨addr, tyId⟩ t).1 with
       | Except.ok m => consumeTrace m.ptr tyId onOk
       | Except.error h => consumeTrace h.ptr tyId onFail)
  | Consume.intoIter sz len dirs panics =>
    (SliceIter.drop sz panics (advanceDirs sz dirs (intoIter addr len sz))).1

/-- Whether a consumption sequence ends in `leak` without re-adoption. -/
def endsInLeak (tyId : Nat) : Consume → Bool
  | Consume.drop => false
  | Consume.leak => true
  | Consume.readopt k => endsInLeak tyId k
  | Consume.intoAny k => endsInLeak tyId k
  | Consume.downcast t onOk onFail =>
    if tyId == t then endsInLeak tyId onOk else endsInLeak tyId onFail
  | Consume.intoIter _ _ _ _ => false

/-- `strlen`: the number of bytes before the first nul terminator. -/
def strlen (bytes : List Nat) : Nat :=
  (bytes.takeWhile fun b => b != 0).length

/-- `Malloced<CStr>`: the handle is a fat pointer, base address plus the
byte length recorded in the slice metadata. -/
structure MallocedCStr where
  ptr : Nat
  len : Nat
deriving DecidableEq

/-- `mem::size_of::<*mut CStr>()`: `CStr` is unsized, so its raw pointer is a
fat pointer of two words. -/
def sizeOfCStrPtr : Nat := 16

/-- `mem::size_of::<*mut c_char>()`: a thin pointer of one word. -/
def sizeOfCCharPtr : Nat := 8

/-- `Malloced::<CStr>::from_ptr` (src/lib.rs lines 335-346): if `&CStr` were
a thin pointer, a dummy length 1 would be used; otherwise the length is
`CStr::from_ptr(ptr).to_bytes_with_nul().len()`, i.e. the scan distance to
the nul terminator plus the terminator itself.  `bytes` is the byte content
of the foreign allocation starting at `base`. -/
def MallocedCStr.from_ptr (base : Nat) (bytes : List Nat) : MallocedCStr :=
  let len := if sizeOfCStrPtr = sizeOfCCharPtr then 1 else strlen bytes + 1
  ⟨base, len⟩

/-- `CStr::to_bytes_with_nul` on the adopted handle: the bytes it covers. -/
def MallocedCStr.to_bytes_with_nul (h : MallocedCStr) (bytes : List Nat) :
    List Nat :=
  bytes.take h.len

/-- `CStr::to_bytes` on the adopted handle: all covered bytes except the
trailing nul terminator. -/
def MallocedCStr.to_bytes (h : MallocedCStr) (bytes : List Nat) : List Nat :=
  bytes.take (h.len - 1)

/-- `Drop for Malloced` applied to a `Malloced<CStr>`: destructor in place at
the base address (a no-op for `CStr`, still ordered first), then
`sys::free(base)`. -/
def MallocedCStr.drop (h : MallocedCStr) : List Event :=
  [Event.destroy h.ptr, Event.free h.ptr]

/-! Helper lemmas about the event-trace projections. -/

theorem freeArgs_nil : freeArgs [] = [] := rfl

theorem freeArgs_cons_guardArm (a : Nat) (l : List Event) :
    freeArgs (Event.guardArm a :: l) = freeArgs l := rfl

theorem freeArgs_cons_destroy (a : Nat) (l : List Event) :
    freeArgs (Event.destroy a :: l) = freeArgs l := rfl

theorem freeArgs_cons_free (a : Nat) (l : List Event) :
    freeArgs (Event.free a :: l) = a :: freeArgs l := rfl

theorem freeArgs_append (l1 l2 : List Event) :
    freeArgs (l1 ++ l2) = freeArgs l1 ++ freeArgs l2 := by
  simp [freeArgs, List.filterMap_append]

theorem destroyArgs_nil : destroyArgs [] = [] := rfl

theorem destroyArgs_cons_guardArm (a : Nat) (l : List Event) :
    destroyArgs (Event.guardArm a :: l) = destroyArgs l := rfl

theorem destroyArgs_cons_destroy (a : Nat) (l : List Event) :
    destroyArgs (Event.destroy a :: l) = a :: destroyArgs l := rfl

theorem destroyArgs_cons_free (a : Nat) (l : List Event) :
    destroyArgs (Event.free a :: l) = destroyArgs l := rfl

theorem destroyArgs_append (l1 l2 : List Event) :
    destroyArgs (l1 ++ l2) = destroyArgs l1 ++ destroyArgs l2 := by
  simp [destroyArgs, List.filterMap_append]

/-- Element-wise destruction never calls the foreign `free`. -/
theorem freeArgs_destroyElems (p : Nat → Bool) (l : List Nat) :
    freeArgs (destroyElems p l).1 = [] := by
  induction l with
  | nil => rfl
  | cons a rest ih =>
    by_cases h : p a
    · simp [destroyElems, h, freeArgs_cons_destroy, freeArgs_nil]
    · simp [destroyElems, h, freeArgs_cons_destroy, ih]

/-- Without a panic, element-wise destruction destroys exactly the given
addresses, in order, each once. -/
theorem destroyArgs_destroyElems (p : Nat → Bool) (l : List Nat)
    (h : (destroyElems p l).2 = false) :
    destroyArgs (destroyElems p l).1 = l := by
  induction l with
  | nil => rfl
  | cons a rest ih =>
    by_cases hp : p a
    · simp [destroyElems, hp] at h
    · simp only [destroyElems, hp, if_false, Bool.false_eq_true] at h ⊢
      rw [destroyArgs_cons_destroy, ih h]

/-- The slice-iterator teardown frees exactly the base address, once. -/
theorem freeArgs_sliceDrop (sz : Nat) (p : Nat → Bool) (it : SliceIter) :
    freeArgs (SliceIter.drop sz p it).1 = [it.buf] := by
  simp [SliceIter.drop, freeArgs_cons_guardArm, freeArgs_append,
    freeArgs_destroyElems, freeArgs_cons_free, freeArgs_nil]

/-- The last event of the slice-iterator teardown is the foreign `free` of
the base address: the scope guard fires when teardown completes. -/
theorem getLast_sliceDrop (sz : Nat) (p : Nat → Bool) (it : SliceIter) :
    ((SliceIter.drop sz p it).1).getLast? = some (Event.free it.buf) := by
  show (Event.guardArm it.buf ::
      ((destroyElems p (remainingAddrs sz it)).1 ++ [Event.free it.buf])).getLast?
    = some (Event.free it.buf)
  rw [← List.cons_append, List.getLast?_concat]

/-- A forward step never changes the stored base address. -/
theorem buf_next (sz : Nat) (it : SliceIter) :
    ((SliceIter.next sz it).2).buf = it.buf := by
  obtain ⟨b, p, e⟩ := it
  unfold SliceIter.next
  split
  · rfl
  · split <;> rfl

/-- A backward step never changes the stored base address. -/
theorem buf_next_back (sz : Nat) (it : SliceIter) :
    ((SliceIter.next_back sz it).2).buf = it.buf := by
  obtain ⟨b, p, e⟩ := it
  unfold SliceIter.next_back
  split
  · rfl
  · split <;> rfl

/-- No sequence of forward/backward steps changes the stored base address. -/
theorem buf_advanceDirs (sz : Nat) (ds : List Dir) (it : SliceIter) :
    (advanceDirs sz ds it).buf = it.buf := by
  induction ds generalizing it with
  | nil => rfl
  | cons d ds ih =>
    cases d <;> simp [advanceDirs, ih, buf_next, buf_next_back]

/-- Taking `strlen` bytes recovers exactly the bytes before the terminator. -/
theorem take_strlen (bytes : List Nat) :
    bytes.take (strlen bytes) = bytes.takeWhile fun b => b != 0 := by
  induction bytes with
  | nil => rfl
  | cons b rest ih =>
    by_cases hb : b = 0
    · subst hb; simp [strlen]
    · simp [strlen, List.takeWhile_cons, hb]
      simpa [strlen] using ih

/-- Taking `strlen + 1` bytes recovers the bytes before the terminator plus
the terminator itself, provided a terminator exists. -/
theorem take_strlen_succ (bytes : List Nat) (h0 : 0 ∈ bytes) :
    bytes.take (strlen bytes + 1) = (bytes.takeWhile fun b => b != 0) ++ [0] := by
  induction bytes with
  | nil => cases h0
  | cons b rest ih =>
    by_cases hb : b = 0
    · subst hb; simp [strlen]
    · have h0r : 0 ∈ rest := by
        cases List.mem_cons.mp h0 with
        | inl h => exact absurd h.symm hb
        | inr h => exact h
      simp [strlen, List.takeWhile_cons, hb]
      simpa [strlen] using ih h0r

/-! Claim theorems. -/

/-- Claim C1, divergence of the code at a concrete input: for a zero-sized
element type (element size 0) and the iterator over one element
(buf = ptr = 16, end = 17, so the remaining count is 1), a backward step
yields an element but leaves the end cursor at 17, decrements the forward
cursor to 15 instead, and the reported remaining count becomes 2 instead of
0: for ZSTs, next_back increases len by one rather than decreasing it. -/
theorem c1_zst_next_back_divergence :
    SliceIter.len 0 ⟨16, 16, 17⟩ = 1
    ∧ (SliceIter.next_back 0 ⟨16, 16, 17⟩).1 = some Item.zeroed
    ∧ (SliceIter.next_back 0 ⟨16, 16, 17⟩).2.endp = 17
    ∧ (SliceIter.next_back 0 ⟨16, 16, 17⟩).2.ptr = 15
    ∧ SliceIter.len 0 (SliceIter.next_back 0 ⟨16, 16, 17⟩).2 = 2 := by
  decide

/-- Claim C2: dropping a slice iterator first arms the scope guard that
releases the base address (the first teardown event), destroys each
remaining element of `[cursor, end)` in place exactly once (in order) when
no destructor panics, and calls the foreign free on the base address exactly
once, as the final teardown event, even when a destructor panics partway. -/
theorem c2_teardown_frees_once (sz : Nat) (panics : Nat → Bool)
    (it : SliceIter) :
    ((SliceIter.drop sz panics it).1).head? = some (Event.guardArm it.buf)
    ∧ freeArgs (SliceIter.drop sz panics it).1 = [it.buf]
    ∧ ((SliceIter.drop sz panics it).1).getLast? = some (Event.free it.buf)
    ∧ ((SliceIter.drop sz panics it).2 = false →
        destroyArgs (SliceIter.drop sz panics it).1 = remainingAddrs sz it) := by
  refine ⟨rfl, freeArgs_sliceDrop sz panics it, getLast_sliceDrop sz panics it, ?_⟩
  intro hnp
  have h2 : (destroyElems panics (remainingAddrs sz it)).2 = false := hnp
  show destroyArgs (Event.guardArm it.buf ::
      ((destroyElems panics (remainingAddrs sz it)).1 ++ [Event.free it.buf]))
    = remainingAddrs sz it
  rw [destroyArgs_cons_guardArm, destroyArgs_append,
    destroyArgs_destroyElems panics _ h2, destroyArgs_cons_free, destroyArgs_nil,
    List.append_nil]

/-- Witness for C2 at element size 1, no panicking destructor, and the
iterator state ⟨8, 9, 11⟩ (one element already consumed from the front). -/
theorem c2_teardown_frees_once_witness :
    ((SliceIter.drop 1 (fun _ => false) ⟨8, 9, 11⟩).1).head?
      = some (Event.guardArm 8)
    ∧ freeArgs (SliceIter.drop 1 (fun _ => false) ⟨8, 9, 11⟩).1 = [8]
    ∧ ((SliceIter.drop 1 (fun _ => false) ⟨8, 9, 11⟩).1).getLast?
      = some (Event.free 8)
    ∧ ((SliceIter.drop 1 (fun _ => false) ⟨8, 9, 11⟩).2 = false →
        destroyArgs (SliceIter.drop 1 (fun _ => false) ⟨8, 9, 11⟩).1
          = remainingAddrs 1 ⟨8, 9, 11⟩) :=
  c2_teardown_frees_once 1 (fun _ => false) ⟨8, 9, 11⟩

/-- Claim C3: dropping an owning handle runs the pointee destructor in place
at the stored address and only afterwards frees that same address: the trace
is exactly destructor-then-free, and the destructor event strictly precedes
the free event. -/
theorem c3_destructor_before_free (m : Malloced) :
    Malloced.drop m = [Event.destroy m.ptr, Event.free m.ptr]
    ∧ ∃ i j, i < j
        ∧ (Malloced.drop m).get? i = some (Event.destroy m.ptr)
        ∧ (Malloced.drop m).get? j = some (Event.free m.ptr) :=
  ⟨rfl, 0, 1, Nat.zero_lt_one, rfl, rfl⟩

/-- Claim C4: over every sequence of consuming operations (drop, leak,
leak-then-readopt, erasure to dyn Any, downcast, conversion to a slice
iterator that is stepped and dropped), the foreign free is called on the
handle's backing address exactly once, except that a sequence ending in
leak (without re-adoption) frees it zero times. -/
theorem c4_free_exactly_once (addr tyId : Nat) (c : Consume) :
    freeArgs (consumeTrace addr tyId c)
      = if endsInLeak tyId c then [] else [addr] := by
  induction c generalizing addr with
  | drop =>
    simp [consumeTrace, endsInLeak, Malloced.drop, freeArgs_cons_destroy,
      freeArgs_cons_free, freeArgs_nil]
  | leak => simp [consumeTrace, endsInLeak, Malloced.leak, freeArgs_nil]
  | readopt k ih =>
    simpa [consumeTrace, endsInLeak, Malloced.leak, Malloced.from_raw] using ih addr
  | intoAny k ih =>
    simpa [consumeTrace, endsInLeak, Malloced.into_any, Malloced.into_raw,
      Malloced.leak] using ih addr
  | downcast t onOk onFail ihOk ihFail =>
    by_cases h : tyId = t
    · subst h
      simp [consumeTrace, endsInLeak, AnyMalloced.downcast, AnyMalloced.is,
        Malloced.from_raw, ihOk]
    · simp [consumeTrace, endsInLeak, AnyMalloced.downcast, AnyMalloced.is,
        h, ihFail]
  | intoIter sz len dirs panics =>
    simp [consumeTrace, endsInLeak, freeArgs_sliceDrop, buf_advanceDirs, intoIter]

/-- Claim C5: downcast on a type-erased handle succeeds exactly when the
carried runtime identity equals the target type; success returns a typed
handle at the same address, mismatch returns the original dynamic handle
unchanged as the error, no events are emitted either way, and erasing a
typed handle then downcasting to its own type recovers the very handle. -/
theorem c5_downcast_ownership (h : AnyMalloced) (target : Nat) (m : Malloced) :
    ((AnyMalloced.downcast h target).1 = Except.ok (Malloced.from_raw h.ptr)
      ↔ h.tyId = target)
    ∧ (h.tyId ≠ target → (AnyMalloced.downcast h target).1 = Except.error h)
    ∧ (AnyMalloced.downcast h target).2 = []
    ∧ ((AnyMalloced.downcast (Malloced.into_any target m).1 target).1
        = Except.ok m
    ∧ (Malloced.into_any target m).2 = []) := by
  refine ⟨?_, ?_, ?_, ?_⟩
  · by_cases ht : h.tyId = target <;>
      simp [AnyMalloced.downcast, AnyMalloced.is, ht]
  · intro ht
    simp [AnyMalloced.downcast, AnyMalloced.is, ht]
  · by_cases ht : h.tyId = target <;>
      simp [AnyMalloced.downcast, AnyMalloced.is, ht]
  · constructor
    · simp [AnyMalloced.downcast, AnyMalloced.is, Malloced.into_any,
        Malloced.into_raw, Malloced.leak, Malloced.from_raw]
    · rfl

/-- Witness for C5: dynamic handle at address 8 with runtime identity 3,
downcast target 4 (a mismatch), and the erase-then-downcast round trip for
the handle at address 8. -/
theorem c5_downcast_ownership_witness :
    ((AnyMalloced.downcast ⟨8, 3⟩ 4).1 = Except.ok (Malloced.from_raw 8)
      ↔ (3 : Nat) = 4)
    ∧ ((3 : Nat) ≠ 4 → (AnyMalloced.downcast ⟨8, 3⟩ 4).1 = Except.error ⟨8, 3⟩)
    ∧ (AnyMalloced.downcast ⟨8, 3⟩ 4).2 = []
    ∧ ((AnyMalloced.downcast (Malloced.into_any 4 ⟨8⟩).1 4).1
        = Except.ok ⟨8⟩
    ∧ (Malloced.into_any 4 ⟨8⟩).2 = []) :=
  c5_downcast_ownership ⟨8, 3⟩ 4 ⟨8⟩

/-- Claim C6: into_raw consumes the handle with no destructor and no free
(an empty event trace), and re-adopting the returned raw address with
from_raw yields the very same handle, with identical drop behavior. -/
theorem c6_into_raw_round_trip (m : Malloced) :
    (Malloced.into_raw m).2 = []
    ∧ Malloced.from_raw (Malloced.into_raw m).1 = m
    ∧ Malloced.drop (Malloced.from_raw (Malloced.into_raw m).1) = Malloced.drop m :=
  ⟨rfl, rfl, rfl⟩

/-- Claim C7: adopting a malloc-ed null-terminated byte sequence scans for
the terminator and covers the whole terminated sequence including the
terminator byte (length strlen + 1), the recovered logical content is the
bytes before the terminator, and dropping the handle frees the original
base address exactly once. -/
theorem c7_cstr_adoption (base : Nat) (bytes : List Nat) (h0 : 0 ∈ bytes) :
    (MallocedCStr.from_ptr base bytes).ptr = base
    ∧ (MallocedCStr.from_ptr base bytes).len = strlen bytes + 1
    ∧ MallocedCStr.to_bytes_with_nul (MallocedCStr.from_ptr base bytes) bytes
        = (bytes.takeWhile fun b => b != 0) ++ [0]
    ∧ MallocedCStr.to_bytes (MallocedCStr.from_ptr base bytes) bytes
        = (bytes.takeWhile fun b => b != 0)
    ∧ freeArgs (MallocedCStr.drop (MallocedCStr.from_ptr base bytes)) = [base] := by
  refine ⟨rfl, rfl, ?_, ?_, rfl⟩
  · show bytes.take (strlen bytes + 1) = _
    exact take_strlen_succ bytes h0
  · show bytes.take (strlen bytes + 1 - 1) = _
    simpa using take_strlen bytes

/-- Witness for C7, the E2E scenario: a 3-byte foreign buffer holding
"hi" followed by the nul terminator, adopted at base address 4; the handle
covers all 3 bytes, the recovered content is "hi" (bytes 104, 105), and the
drop frees address 4 exactly once. -/
theorem c7_cstr_adoption_witness :
    (MallocedCStr.from_ptr 4 [104, 105, 0]).ptr = 4
    ∧ (MallocedCStr.from_ptr 4 [104, 105, 0]).len = 3
    ∧ MallocedCStr.to_bytes_with_nul (MallocedCStr.from_ptr 4 [104, 105, 0])
        [104, 105, 0] = [104, 105, 0]
    ∧ MallocedCStr.to_bytes (MallocedCStr.from_ptr 4 [104, 105, 0])
        [104, 105, 0] = [104, 105]
    ∧ freeArgs (MallocedCStr.drop (MallocedCStr.from_ptr 4 [104, 105, 0])) = [4] :=
  c7_cstr_adoption 4 [104, 105, 0] (by decide)

/-- Claim C8: the iterator's reported remaining count equals the byte
distance between the cursors divided by the element width for non-zero
widths, and the byte distance itself for width zero; the checked division in
the code realizes exactly this branch on the element width, so no division
by zero occurs. -/
theorem c8_len_formula (sz : Nat) (it : SliceIter) :
    SliceIter.len sz it = lenSpec sz it := by
  unfold SliceIter.len lenSpec checked_div
  by_cases h : sz = 0 <;> simp [h, byteDistance]

/-- Claim C9: every foreign free performed by the component passes a
non-null address: the handle's drop frees the handle's stored non-null
pointer, and the slice iterator's drop frees the stored non-null base
address of the original allocation — which no sequence of forward or
backward steps changes — not the advanced cursor. -/
theorem c9_free_args_nonnull (m : Malloced) (hm : m.ptr ≠ 0) (sz : Nat)
    (ds : List Dir) (panics : Nat → Bool) (it : SliceIter) (hb : it.buf ≠ 0) :
    (freeArgs (Malloced.drop m) = [m.ptr] ∧ m.ptr ≠ 0)
    ∧ ((advanceDirs sz ds it).buf = it.buf
        ∧ freeArgs (SliceIter.drop sz panics (advanceDirs sz ds it)).1 = [it.buf]
        ∧ it.buf ≠ 0) := by
  refine ⟨⟨rfl, hm⟩, buf_advanceDirs sz ds it, ?_, hb⟩
  rw [freeArgs_sliceDrop, buf_advanceDirs]

/-- Witness for C9: a handle at address 4, and a 2-element iterator of
element size 4 based at non-null address 4 advanced by one forward step. -/
theorem c9_free_args_nonnull_witness :
    (freeArgs (Malloced.drop ⟨4⟩) = [4] ∧ (4 : Nat) ≠ 0)
    ∧ ((advanceDirs 4 [Dir.fwd] ⟨4, 4, 12⟩).buf = 4
        ∧ freeArgs (SliceIter.drop 4 (fun _ => false)
            (advanceDirs 4 [Dir.fwd] ⟨4, 4, 12⟩)).1 = [4]
        ∧ (4 : Nat) ≠ 0) :=
  c9_free_args_nonnull ⟨4⟩ (by decide) 4 [Dir.fwd] (fun _ => false) ⟨4, 4, 12⟩
    (by decide)

/-- Claim C10: a step (forward or backward) yields nothing exactly when the
two cursors coincide, and in that exhausted state both next and next_back
return no element and leave the state unchanged, so exhaustion is absorbing
and the iterator is fused. -/
theorem c10_exhaustion_fused (sz : Nat) (it : SliceIter) :
    ((SliceIter.next sz it).1 = none ↔ it.ptr = it.endp)
    ∧ ((SliceIter.next_back sz it).1 = none ↔ it.ptr = it.endp)
    ∧ (it.ptr = it.endp →
        SliceIter.next sz it = (none, it)
        ∧ SliceIter.next_back sz it = (none, it)) := by
  obtain ⟨b, p, e⟩ := it
  refine ⟨?_, ?_, ?_⟩
  · by_cases h1 : p = e <;> by_cases h2 : sz = 0 <;>
      simp [SliceIter.next, h1, h2]
  · by_cases h1 : p = e
    · simp [SliceIter.next_back, h1]
    · have h1' : ¬e = p := fun hh => h1 hh.symm
      by_cases h2 : sz = 0 <;> simp [SliceIter.next_back, h1, h1', h2]
  · intro h1
    have hpe : p = e := h1
    subst hpe
    simp [SliceIter.next, SliceIter.next_back]

/-- Witness for C10 at the exhausted iterator ⟨8, 8, 8⟩ with element
size 4. -/
theorem c10_exhaustion_fused_witness :
    SliceIter.next 4 ⟨8, 8, 8⟩ = (none, ⟨8, 8, 8⟩)
    ∧ SliceIter.next_back 4 ⟨8, 8, 8⟩ = (none, ⟨8, 8, 8⟩) :=
  (c10_exhaustion_fused 4 ⟨8, 8, 8⟩).2.2 rfl

end MallocedModel
